import Mathlib

/-!
Verification of the agent web-frontend orchestration layer: a shallow
embedding in Lean 4 of the message classifier, agent-name normalisation,
workflow execution loop, replay conversion, terminal projection and the
session logger, together with theorems settling the specified properties.
-/

namespace Agent

/-! ## Python string primitives

The repository is Python; the helpers below embed the exact Python string
operations the code under `src/` relies on (`in`, `str.strip`, `str.lower`,
`str.startswith`, `str.title`, single-character `str.replace`).
-/

/-- Worker for `strContains`: does `n` occur as a contiguous sublist? -/
def containsAux (n : List Char) : List Char → Bool
  | [] => n.isEmpty
  | c :: cs => n.isPrefixOf (c :: cs) || containsAux n cs

/-- Python `needle in hay` substring containment on strings. -/
def strContains (hay needle : String) : Bool :=
  containsAux needle.data hay.data

/-- The characters Python `str.strip()` removes. -/
def isPySpace (c : Char) : Bool :=
  c = ' ' || c = '\t' || c = '\n' || c = '\x0d' || c = '\x0b' || c = '\x0c'

/-- Python `str.strip()`: drop leading and trailing whitespace. -/
def pyStrip (s : String) : String :=
  ⟨(((s.data.dropWhile isPySpace).reverse.dropWhile isPySpace).reverse)⟩

/-- Python single-character `str.replace(c, r)`: replace every occurrence. -/
def replaceChar (c : Char) (r : List Char) : List Char → List Char
  | [] => []
  | x :: xs => if x = c then r ++ replaceChar c r xs else x :: replaceChar c r xs

/-- Python `str.startswith(p)`. -/
def pyStartsWith (s p : String) : Bool :=
  p.data.isPrefixOf s.data

/-- ASCII lowercase of one character (Python `str.lower` on the ASCII
names this code deals in). -/
def lowerChar (c : Char) : Char :=
  if 'A' ≤ c && c ≤ 'Z' then Char.ofNat (c.toNat + 32) else c

/-- Python `str.lower()` (the agent names in play are ASCII). -/
def pyLower (s : String) : String := ⟨s.data.map lowerChar⟩

/-- How a Python f-string renders an `Optional[str]`: `None` renders as
the literal string `"None"`. -/
def pyShowOpt : Option String → String
  | none => "None"
  | some s => s

/-- Python truthiness of an `Optional[str]`: `None` and `""` are falsy. -/
def pyTruthy : Option String → Bool
  | none => false
  | some s => s ≠ ""

/-- Python `x or d` on an `Optional[str]` with default `d`. -/
def pyOrElse (x : Option String) (d : String) : String :=
  if pyTruthy x then x.getD d else d

/-! ## `AgentManager.normalize_agent_name` (`src/src/utils/agents.py`, lines 40-74) -/

/-- `AgentManager.normalize_agent_name`: lowercase the raw name and return
the first keyword match in the fixed precedence chain, `""` when nothing
matches.  Direct transcription of the `if/elif` chain in
`src/src/utils/agents.py`. -/
def normalize_agent_name (agent_name : String) : String :=
  if agent_name = "" then ""
  else
    let n := pyLower agent_name
    if strContains n "planner" then "planner"
    else if strContains n "reconnaissance" then "reconnaissance"
    else if strContains n "initial_access" || strContains n "initial" then "initial_access"
    else if strContains n "execution" then "execution"
    else if strContains n "persistence" then "persistence"
    else if strContains n "privilege_escalation" || strContains n "privilege" then "privilege_escalation"
    else if strContains n "defense_evasion" || strContains n "defense" || strContains n "evasion" then "defense_evasion"
    else if strContains n "summary" then "summary"
    else if strContains n "tool" then "tool"
    else if strContains n "supervisor" then "supervisor"
    else ""

/-- The precedence table as the spec words it: keyword groups in priority
order, each paired with the normalised name it yields. -/
def keywordPrecedence : List (List String × String) :=
  [(["planner"], "planner"),
   (["reconnaissance"], "reconnaissance"),
   (["initial_access", "initial"], "initial_access"),
   (["execution"], "execution"),
   (["persistence"], "persistence"),
   (["privilege_escalation", "privilege"], "privilege_escalation"),
   (["defense_evasion", "defense", "evasion"], "defense_evasion"),
   (["summary"], "summary"),
   (["tool"], "tool"),
   (["supervisor"], "supervisor")]

/-- First keyword group (in priority order) whose keyword occurs in the
lowercased name wins; `""` when none does. -/
def firstMatch (n : String) : List (List String × String) → String
  | [] => ""
  | (kws, r) :: rest => if kws.any (fun k => strContains n k) then r else firstMatch n rest

/-- Spec-side reading of the normaliser: priority-ordered substring matching
against the lowercased raw name, the first matching keyword group wins,
`""` when no keyword matches. -/
def normalizeSpec (agent_name : String) : String :=
  if agent_name = "" then ""
  else firstMatch (pyLower agent_name) keywordPrecedence

/-- General Python `str.replace(pat, rep)` (all occurrences, left to
right, non-overlapping), fuelled by the input length so it reduces in the
kernel.  Python never calls it with an empty pattern in this codebase. -/
def pyReplaceGo (pat rep : List Char) : Nat → List Char → List Char
  | 0, l => l
  | _ + 1, [] => []
  | fuel + 1, c :: cs =>
    if pat.isPrefixOf (c :: cs) then rep ++ pyReplaceGo pat rep fuel (cs.drop (pat.length - 1))
    else c :: pyReplaceGo pat rep fuel cs

/-- Python `s.replace(pat, rep)`. -/
def pyReplace (s pat rep : String) : String :=
  if pat = "" then s else ⟨pyReplaceGo pat.data rep.data s.data.length s.data⟩

/-- ASCII uppercase of one character. -/
def upperChar (c : Char) : Char :=
  if 'a' ≤ c && c ≤ 'z' then Char.ofNat (c.toNat - 32) else c

/-- Worker for `pyTitle`; the flag records whether the previous character
was alphabetic. -/
def pyTitleAux : Bool → List Char → List Char
  | _, [] => []
  | prevAlpha, c :: cs =>
    if c.isAlpha then
      (if prevAlpha then lowerChar c else upperChar c) :: pyTitleAux true cs
    else c :: pyTitleAux false cs

/-- Python `str.title()` on the ASCII tool names in play. -/
def pyTitle (s : String) : String := ⟨pyTitleAux false s.data⟩

/-! ## Message utilities (`src/src/utils/message.py`) -/

/-- `parse_tool_name`: strip a `transfer_to_` prefix into a friendly
transfer label, otherwise turn snake_case into Title Case. -/
def parse_tool_name (tool_name : String) : String :=
  if pyStartsWith tool_name "transfer_to_" then
    "Transfer to " ++ pyTitle (pyReplace (pyReplace tool_name "transfer_to_" "") "_" " ")
  else
    pyTitle (pyReplace tool_name "_" " ")

/-- `get_agent_name`: the first namespace element up to its first `:`,
`"Unknown"` when the namespace is empty or carries no `:`. -/
def get_agent_name (namespc : List String) : String :=
  match namespc with
  | [] => "Unknown"
  | s :: _ => if strContains s ":" then ⟨s.data.takeWhile (fun c => c ≠ ':')⟩ else "Unknown"

/-! ## Messages and the Message Classifier (`src/frontend/web/core/executor.py`) -/

/-- The three LangChain message classes the classifier distinguishes. -/
inductive MsgKind where
  | human
  | ai
  | tool
deriving DecidableEq, Repr

/-- One tool call attached to an AI message, as `extract_tool_calls`
standardises it. -/
structure ToolCall where
  id : String
  name : String
  args : List (String × String)
deriving DecidableEq, Repr

/-- A raw stream message as the executor sees it: its class, its optional
graph-native id (`getattr(message, 'id', None)`), its extracted textual
content (`extract_message_content`), its tool name attribute and its
attached tool calls. -/
structure RawMessage where
  kind : MsgKind
  id : Option String
  content : String
  name : Option String := none
  toolCalls : List ToolCall := []
deriving DecidableEq, Repr

/-- `get_message_type`: the role string of each message class. -/
def msgRole : MsgKind → String
  | .human => "user"
  | .ai => "ai"
  | .tool => "tool"

/-- The dedupe identifier `_should_display_message` derives (lines
265-269): the graph-native id when present and non-empty (Python
truthiness), else the synthesized `f"{agent_name}_{hash(str(content))}"`.
Python's string `hash` is opaque and process-seeded, so it enters the
embedding as the parameter `h`. -/
def deriveMessageId (h : String → Int) (m : RawMessage) (agent_name : String) : String :=
  match m.id with
  | some s => if s = "" then agent_name ++ "_" ++ toString (h m.content) else s
  | none => agent_name ++ "_" ++ toString (h m.content)

/-- `Executor._should_display_message` (lines 262-290): emit the message
with its role when its identifier is unseen, recording the identifier;
suppress it otherwise.  Returns the verdict and the updated seen set. -/
def shouldDisplayMessage (h : String → Int) (m : RawMessage) (agent_name : String)
    (processed : List String) : (Bool × Option String) × List String :=
  let message_id := deriveMessageId h m agent_name
  match m.kind with
  | .human =>
    if message_id ∈ processed then ((false, none), processed)
    else ((true, some "user"), message_id :: processed)
  | .ai =>
    if message_id ∈ processed then ((false, none), processed)
    else ((true, some "ai"), message_id :: processed)
  | .tool =>
    if message_id ∈ processed then ((false, none), processed)
    else ((true, some "tool"), message_id :: processed)

/-- Run the classifier over a sequence of (message, agent) observations,
threading the seen-id set; returns the per-observation verdicts and the
final set. -/
def classifyList (h : String → Int) :
    List (RawMessage × String) → List String → List (Bool × Option String) × List String
  | [], processed => ([], processed)
  | (m, a) :: rest, processed =>
    let r := shouldDisplayMessage h m a processed
    let rr := classifyList h rest r.2
    (r.1 :: rr.1, rr.2)

/-! ## The executor's streaming loop (`Executor.execute_workflow`) -/

/-- The metrics payload the cost tracker accumulates and
`workflow_complete` carries. -/
structure Metrics where
  totalTokens : Nat := 0
  totalInputTokens : Nat := 0
  totalOutputTokens : Nat := 0
  numLlmCalls : Nat := 0
deriving DecidableEq, Repr

/-- The events the executor yields and the workflow handler consumes. -/
inductive WEvent where
  | message (messageType : String) (agentName : String) (content : String)
      (toolName : Option String) (toolDisplayName : Option String)
      (rawToolCalls : List ToolCall) (cmd : Option String)
  | workflowComplete (stepCount : Nat) (metrics : Metrics)
  | error (msg : String)
deriving DecidableEq, Repr

/-- One `astream` update tuple: the subgraph namespace and the node →
value map; a node's entry carries its `messages` list when the value is a
dict holding one, `none` otherwise. -/
structure StreamItem where
  namespc : List String
  nodes : List (String × Option (List RawMessage))
deriving Repr

/-- An exception surfacing while streaming. -/
inductive Exn where
  | cancelled
  | other (msg : String)
deriving DecidableEq, Repr

/-- The error text each `except` block of `execute_workflow` puts in its
terminal `error` event: a fixed message for cooperative cancellation,
`str(e)` otherwise. -/
def exnText : Exn → String
  | .cancelled => "Workflow execution cancelled"
  | .other m => m

/-- A finite observation of the update stream: exhausted normally after
`items`, or raising `exn` after yielding `items`. -/
inductive StreamOutcome where
  | done (items : List StreamItem)
  | failed (items : List StreamItem) (exn : Exn)

/-- Process the nodes of one stream item (the inner `for node, value`
loop): classify each node's latest message and emit a display event for
the ones the classifier admits. -/
def processNodes (h : String → Int) (agent : String) :
    List (String × Option (List RawMessage)) → List String → List WEvent × List String
  | [], processed => ([], processed)
  | (_, v) :: rest, processed =>
    match v with
    | none => processNodes h agent rest processed
    | some msgs =>
      match msgs.getLast? with
      | none => processNodes h agent rest processed
      | some latest =>
        let r := shouldDisplayMessage h latest agent processed
        if r.1.1 then
          let tool_name := latest.name.getD "Unknown Tool"
          let mtype := r.1.2
          let ev := WEvent.message (mtype.getD "") agent latest.content
            (if mtype = some "tool" then some tool_name else none)
            (if mtype = some "tool" then some (parse_tool_name tool_name) else none)
            latest.toolCalls none
          let rr := processNodes h agent rest r.2
          (ev :: rr.1, rr.2)
        else processNodes h agent rest r.2

/-- The outer `async for` loop: one tick per stream item, threading the
step count and the seen-id set. -/
def processItems (h : String → Int) :
    List StreamItem → Nat → List String → List WEvent × Nat × List String
  | [], step, processed => ([], step, processed)
  | item :: rest, step, processed =>
    let step' := step + 1
    let agent := get_agent_name item.namespc
    let r := processNodes h agent item.nodes processed
    let rr := processItems h rest step' r.2
    (r.1 ++ rr.1, rr.2.1, rr.2.2)

/-- `Executor.execute_workflow` (lines 107-260) as a function of the
observed stream outcome: the list of yielded events and the exception it
re-raises (cooperative cancellation only).  `prior` is the
`_processed_message_ids` set left over from an earlier call; line 136
resets it to empty before streaming, so it is discarded. -/
def execute_workflow (h : String → Int) (prior : List String)
    (outcome : StreamOutcome) (metrics : Metrics) : List WEvent × Option Exn :=
  let _ := prior
  match outcome with
  | .done items =>
    let r := processItems h items 0 []
    (r.1 ++ [WEvent.workflowComplete r.2.1 metrics], none)
  | .failed items exn =>
    let r := processItems h items 0 []
    (r.1 ++ [WEvent.error (exnText exn)],
     if exn = Exn.cancelled then some Exn.cancelled else none)

/-! ## `MessageProcessor` (`src/frontend/web/core/message_processor.py`) -/

/-- Python `s[:n]` on strings. -/
def pyTake (s : String) (n : Nat) : String := ⟨s.data.take n⟩

/-- A frontend message dict as `MessageProcessor` builds it; absent dict
keys are `none`. -/
structure FrontendMessage where
  type : String
  content : String
  id : String
  agentId : Option String := none
  displayName : Option String := none
  avatar : Option String := none
  toolCalls : Option (List ToolCall) := none
  toolName : Option String := none
  toolDisplayName : Option String := none
deriving DecidableEq, Repr

/-- `AgentManager.get_display_name` and `get_avatar` read
`static/config/agents.json`; the configuration-file lookups enter the
embedding as opaque functions of the raw agent name. -/
structure AgentConfig where
  displayNameOf : String → String
  avatarOf : String → String

/-- `MessageProcessor._create_ai_message` (lines 59-83); `now` is the
rendered `datetime.now().timestamp()` and `h` Python's string hash. -/
def _create_ai_message (h : String → Int) (now : String)
    (agent_name display_name avatar content : String)
    (rawToolCalls : List ToolCall) : FrontendMessage :=
  let base : FrontendMessage := {
    type := "ai"
    agentId := some (pyLower agent_name)
    displayName := some display_name
    avatar := some avatar
    content := content
    id := "ai_" ++ pyLower agent_name ++ "_" ++ toString (h (pyTake content 100)) ++ "_" ++ now }
  if rawToolCalls ≠ [] then { base with toolCalls := some rawToolCalls } else base

/-- `MessageProcessor._create_tool_message` (lines 85-96). -/
def _create_tool_message (h : String → Int) (now : String)
    (tool_name tool_display_name : Option String) (content : String) : FrontendMessage :=
  let tn := tool_name.getD "Unknown Tool"
  { type := "tool"
    toolName := some tn
    toolDisplayName := some (tool_display_name.getD (parse_tool_name tn))
    content := content
    id := "tool_" ++ tn ++ "_" ++ toString (h (pyTake content 100)) ++ "_" ++ now }

/-- `MessageProcessor._create_user_message` (lines 98-104). -/
def _create_user_message (h : String → Int) (now : String) (content : String) : FrontendMessage :=
  { type := "user"
    content := content
    id := "user_" ++ toString (h content) ++ "_" ++ now }

/-- `MessageProcessor.process_cli_event` (lines 27-57): convert an
executor event to a frontend message (non-message events carry the dict
defaults, falling through to the handle-as-AI branch). -/
def process_cli_event (h : String → Int) (cfg : AgentConfig) (now : String)
    (ev : WEvent) : FrontendMessage :=
  match ev with
  | .message messageType agentName content _toolName toolDisplayName rawToolCalls _ =>
    if messageType = "ai" then
      _create_ai_message h now agentName (cfg.displayNameOf agentName)
        (cfg.avatarOf agentName) content rawToolCalls
    else if messageType = "tool" then
      _create_tool_message h now _toolName toolDisplayName content
    else if messageType = "user" then
      _create_user_message h now content
    else
      _create_ai_message h now agentName (cfg.displayNameOf agentName)
        (cfg.avatarOf agentName) content rawToolCalls
  | _ =>
    _create_ai_message h now "Unknown" (cfg.displayNameOf "Unknown")
      (cfg.avatarOf "Unknown") "" []

/-- `MessageProcessor.is_duplicate_message` (lines 127-152): an id-based
pass over the existing messages, then a content-based pass comparing
agent id, type and content. -/
def is_duplicate_message (new_message : FrontendMessage)
    (existing : List FrontendMessage) : Bool :=
  if new_message.id = "" then false
  else if existing.any (fun m => m.id == new_message.id) then true
  else existing.any (fun m =>
    m.agentId == new_message.agentId && m.type == new_message.type &&
      m.content == new_message.content)

/-! ## Agent-activity state (`WorkflowHandler._update_agent_status_logic`) -/

/-- The agent-status slice of `st.session_state`. -/
structure AgentStatus where
  activeAgent : Option String := none
  completedAgents : List String := []
  keepInitialUI : Bool := true
deriving DecidableEq, Repr

/-- The reverse scan of lines 362-369: the most recent AI message event
with a usable (non-empty, non-`"Unknown"`) agent name, lowercased. -/
def findActiveAgentRev : List WEvent → Option String
  | [] => none
  | e :: rest =>
    match e with
    | .message mt an _ _ _ _ _ =>
      if mt = "ai" && an ≠ "" && an ≠ "Unknown" then some (pyLower an)
      else findActiveAgentRev rest
    | _ => findActiveAgentRev rest

/-- Scan `event_history` newest-first for the active agent. -/
def findActiveAgent (hist : List WEvent) : Option String :=
  findActiveAgentRev hist.reverse

/-- `WorkflowHandler._update_agent_status_logic` (lines 360-382): on a
change of active agent, record the previous one in `completed_agents`
(once), then flip `keep_initial_ui` when agent activity exists. -/
def _update_agent_status_logic (hist : List WEvent) (s : AgentStatus) : AgentStatus :=
  let active := findActiveAgent hist
  let s1 :=
    match active with
    | none => s
    | some a =>
      if some a ≠ s.activeAgent then
        let completed :=
          match s.activeAgent with
          | some prev =>
            if prev = "" then s.completedAgents
            else if prev ∈ s.completedAgents then s.completedAgents
            else s.completedAgents ++ [prev]
          | none => s.completedAgents
        { s with activeAgent := some a, completedAgents := completed }
      else s
  if s1.keepInitialUI &&
      (pyTruthy s1.activeAgent || !s1.completedAgents.isEmpty) then
    { s1 with keepInitialUI := false }
  else s1

/-- Drive the status machine the way the execution loop does: append each
event to `event_history`, then run the status update on the grown
history. -/
def runAgentEvents : List WEvent → List WEvent → AgentStatus → List WEvent × AgentStatus
  | [], hist, s => (hist, s)
  | e :: rest, hist, s =>
    let hist' := hist ++ [e]
    runAgentEvents rest hist' (_update_agent_status_logic hist' s)

/-- An AI message event whose resolved agent is `a`. -/
def aiEv (a : String) : WEvent :=
  WEvent.message "ai" a "" none none [] none

/-! ## Session logger (`src/src/utils/logging/logger.py`) -/

/-- The four replay event kinds of `EventType`. -/
inductive EventType where
  | user_input
  | agent_response
  | tool_command
  | tool_output
deriving DecidableEq, Repr

/-- The `Event` dataclass. -/
structure LogEvent where
  event_type : EventType
  timestamp : String
  content : String
  agent_name : Option String := none
  tool_name : Option String := none
  tool_calls : Option (List ToolCall) := none
deriving DecidableEq, Repr

/-- The `Session` dataclass. -/
structure LogSession where
  session_id : String
  start_time : String
  events : List LogEvent
  model : Option String := none
deriving DecidableEq, Repr

/-- `Logger.save_session` (lines 154-172): `False` and no write without a
current session or without events; otherwise the session is dumped to
disk.  The write lands in the returned list; `diskOk` models the
`try/except` around the file write. -/
def save_session (current_session : Option LogSession) (diskOk : Bool) :
    Bool × List LogSession :=
  match current_session with
  | none => (false, [])
  | some s =>
    if s.events = [] then (false, [])
    else if diskOk then (true, [s]) else (false, [])

/-- The `Logger.log_*` appenders: a no-op without a current session. -/
def loggerAppend (lg : Option LogSession) (e : LogEvent) : Option LogSession :=
  match lg with
  | none => none
  | some s => some { s with events := s.events ++ [e] }

/-! ## `TerminalProcessor` (`src/frontend/web/core/terminal_processor.py`) -/

/-- One terminal-history entry (`type` is `"command"` or `"output"`). -/
structure TerminalEntry where
  type : String
  content : String
  timestamp : String
deriving DecidableEq, Repr

/-- `sanitize_output` (lines 50-68): HTML-escape `&`, `<`, `>`, then
render newlines as `<br>`. -/
def sanitize_output (output : String) : String :=
  ⟨replaceChar '\n' "<br>".data
    (replaceChar '>' "&gt;".data
      (replaceChar '<' "&lt;".data
        (replaceChar '&' "&amp;".data output.data)))⟩

/-- The prefixes `clean_command` strips, in order (lines 35-42). -/
def prefixesToRemove : List String :=
  ["Running command:", "Executing:", "Command:", "Execute:", "$", "# "]

/-- The prefix-stripping pass of `clean_command` (lines 44-46). -/
def stripPrefixes : List String → String → String
  | [], c => c
  | p :: ps, c =>
    let c' := if pyStartsWith c p then pyStrip ⟨c.data.drop p.data.length⟩ else c
    stripPrefixes ps c'

/-- `clean_command` (lines 15-48): strip, keep only the first line, strip
the known launcher prefixes. -/
def clean_command (command : String) : String :=
  let c := pyStrip command
  let c := if strContains c "\n" then pyStrip ⟨c.data.takeWhile (fun ch => ch ≠ '\n')⟩ else c
  stripPrefixes prefixesToRemove c

/-- Leading Python-whitespace count. -/
def wsCount (l : List Char) : Nat := (l.takeWhile isPySpace).length

/-- Semantics of the regex tail `\s*(.+)` applied to `rest` (with
backtracking): fails when `rest` is empty, else captures `rest` minus as
much leading whitespace as can be given up while keeping the capture
non-empty. -/
def capAfterWs (rest : List Char) : Option (List Char) :=
  if rest = [] then none
  else some (rest.drop (min (wsCount rest) (rest.length - 1)))

/-- `re.search` of `(?:command|executing|running):\s*(.+)` with
`IGNORECASE`: scan left to right for one of the three words followed by a
colon; when the capture fails the scan continues at the next position. -/
def searchWordColon : List Char → Option (List Char)
  | [] => none
  | c :: cs =>
    let low := (c :: cs).map lowerChar
    match ["command:", "executing:", "running:"].find? (fun w => w.data.isPrefixOf low) with
    | some w =>
      match capAfterWs ((c :: cs).drop w.data.length) with
      | some cap => some cap
      | none => searchWordColon cs
    | none => searchWordColon cs

/-- `re.search` of `\$\s*(.+)` (resp. `#\s*(.+)`): scan for the marker
character, then capture per `capAfterWs`. -/
def searchMarker (marker : Char) : List Char → Option (List Char)
  | [] => none
  | c :: cs =>
    if c = marker then
      match capAfterWs cs with
      | some cap => some cap
      | none => searchMarker marker cs
    else searchMarker marker cs

/-- `extract_command_from_line` (lines 70-96): try the patterns in order
and return the first stripped non-empty capture; the anchored fallback
pattern and the final `return line` both come to the stripped line. -/
def extract_command_from_line (line : String) : String :=
  let l := pyStrip line
  match [searchWordColon l.data, searchMarker '$' l.data,
      searchMarker '#' l.data].findSome? (fun c =>
        match c with
        | some cap =>
          let cmd := pyStrip ⟨cap⟩
          if cmd ≠ "" then some cmd else none
        | none => none) with
  | some cmd => cmd
  | none => l

/-- `_is_terminal_tool` (lines 151-165). -/
def _is_terminal_tool (tool_display_name : String) : Bool :=
  strContains (pyLower tool_display_name) "terminal" ||
  strContains (pyLower tool_display_name) "command" ||
  strContains (pyLower tool_display_name) "exec" ||
  strContains (pyLower tool_display_name) "shell"

/-- The command-indicator test of line 187. -/
def hasCommandIndicator (l : String) : Bool :=
  ["$", "#", "command:", "executing:", "running:"].any
    (fun ind => strContains (pyLower l) ind)

/-- Python `content.split('\n')` on character lists. -/
def splitOnChar (c : Char) : List Char → List (List Char)
  | [] => [[]]
  | x :: xs =>
    let r := splitOnChar c xs
    if x = c then [] :: r
    else
      match r with
      | h :: t => (x :: h) :: t
      | [] => [[x]]

/-- Python `'\n'.join(lines)`. -/
def joinNl : List String → String
  | [] => ""
  | [s] => s
  | s :: rest => s ++ "\n" ++ joinNl rest

/-- The line scan of lines 183-206: the first line carrying a command
indicator whose extracted command is non-empty, with the remaining
(original) lines. -/
def findCommandLine : List String → Option (String × List String)
  | [] => none
  | l :: rest =>
    let ls := pyStrip l
    if hasCommandIndicator ls then
      let cleaned := extract_command_from_line ls
      if cleaned ≠ "" then some (cleaned, rest) else findCommandLine rest
    else findCommandLine rest

/-- `_process_terminal_tool_message` (lines 167-222): one cleaned command
entry from the first indicator line plus the sanitized remainder, or the
lowercased tool name plus the sanitized whole content as fallback. -/
def _process_terminal_tool_message (ts : String) (tool_display_name content : String) :
    List TerminalEntry :=
  let lines := if content = "" then [] else (splitOnChar '\n' content.data).map (⟨·⟩)
  match findCommandLine lines with
  | some (cleaned, rest) =>
    let cmdEntry : TerminalEntry := ⟨"command", clean_command cleaned, ts⟩
    let remaining := joinNl rest
    if pyStrip remaining ≠ "" then
      [cmdEntry, ⟨"output", sanitize_output (pyStrip remaining), ts⟩]
    else [cmdEntry]
  | none =>
    if pyStrip content ≠ "" then
      [⟨"command", clean_command (pyLower tool_display_name), ts⟩,
       ⟨"output", sanitize_output content, ts⟩]
    else []

/-- `process_frontend_messages` (lines 98-149): fold over the messages,
skipping already-processed ids, projecting tool messages to terminal
entries and recording processed tool-message ids. -/
def process_frontend_messages (ts : String) :
    List FrontendMessage → List String → List TerminalEntry × List String
  | [], processed => ([], processed)
  | m :: rest, processed =>
    if m.id ∈ processed then process_frontend_messages ts rest processed
    else if m.type = "tool" then
      let tdn := m.toolDisplayName.getD "Tool"
      let entries :=
        if _is_terminal_tool tdn then _process_terminal_tool_message ts tdn m.content
        else if m.content ≠ "" && pyStrip m.content ≠ "" then
          [⟨"command", tdn, ts⟩, ⟨"output", sanitize_output m.content, ts⟩]
        else []
      let r := process_frontend_messages ts rest (m.id :: processed)
      (entries ++ r.1, r.2)
    else process_frontend_messages ts rest processed

/-! ## `WorkflowHandler.execute_workflow_logic` (`src/frontend/web/core/workflow_handler.py`) -/

/-- The slice of `st.session_state` the execution loop touches.
`loggerSession` is `none` when no logger is installed, otherwise the
logger's current session (itself optional). -/
structure SessionState where
  structuredMessages : List FrontendMessage := []
  eventHistory : List WEvent := []
  workflowRunning : Bool := false
  agent : AgentStatus := {}
  loggerSession : Option (Option LogSession) := none
  terminalHistory : List TerminalEntry := []

/-- `WorkflowHandler._log_message_event` (lines 331-358): route an AI
message to `log_agent_response` and a tool message to `log_tool_command`
or `log_tool_output`; a no-op without a logger. -/
def _log_message_event (now : String) (ev : WEvent) (fm : FrontendMessage)
    (logger : Option (Option LogSession)) : Option (Option LogSession) :=
  match logger with
  | none => none
  | some lg =>
    match ev with
    | .message mt an content toolName _ _ cmd =>
      if mt = "ai" then
        let e : LogEvent :=
          { event_type := .agent_response
            timestamp := now
            content := content
            agent_name := some an
            tool_calls := fm.toolCalls }
        some (loggerAppend lg e)
      else if mt = "tool" then
        let tn := toolName.getD "Unknown Tool"
        match cmd with
        | some c =>
          let e : LogEvent :=
            { event_type := .tool_command
              timestamp := now
              content := c
              tool_name := some tn }
          some (loggerAppend lg e)
        | none =>
          let e : LogEvent :=
            { event_type := .tool_output
              timestamp := now
              content := content
              tool_name := some tn }
          some (loggerAppend lg e)
      else some lg
    | _ => some lg

/-- `WorkflowHandler._process_terminal_message_logic` (lines 293-329):
push a command entry named after the tool and, for non-empty content, an
HTML-escaped output entry straight onto the terminal history. -/
def _process_terminal_message_logic (ts : String) (fm : FrontendMessage)
    (hist : List TerminalEntry) : List TerminalEntry :=
  let tool_name := fm.toolDisplayName.getD "Tool"
  let hist' := hist ++ [⟨"command", tool_name, ts⟩]
  if fm.content ≠ "" then
    hist' ++ [⟨"output",
      ⟨replaceChar '\n' "<br>".data
        (replaceChar '>' "&gt;".data
          (replaceChar '<' "&lt;".data
            (replaceChar '&' "&amp;".data fm.content.data)))⟩, ts⟩]
  else hist'

/-- Bump the `agent_activity` counter for one agent (lines 277-280). -/
def bumpActivity : List (String × Nat) → String → List (String × Nat)
  | [], a => [(a, 1)]
  | (k, v) :: rest, a =>
    if k = a then (k, v + 1) :: rest else (k, v) :: bumpActivity rest a

/-- `WorkflowHandler._process_message_event_logic` (lines 253-291):
convert, dedupe against `structured_messages`, then append, log, bump the
activity counter, hand the message to the display callback and project
tool messages to the terminal.  Returns the updated state, the activity
map and the messages handed to the display callback. -/
def _process_message_event_logic (h : String → Int) (cfg : AgentConfig) (now : String)
    (ev : WEvent) (activity : List (String × Nat)) (st : SessionState) :
    SessionState × List (String × Nat) × List FrontendMessage :=
  let fm := process_cli_event h cfg now ev
  if is_duplicate_message fm st.structuredMessages then (st, activity, [])
  else
    let an := match ev with | .message _ a _ _ _ _ _ => a | _ => "Unknown"
    let st' := { st with
      structuredMessages := st.structuredMessages ++ [fm]
      loggerSession := _log_message_event now ev fm st.loggerSession
      terminalHistory :=
        if fm.type = "tool" then _process_terminal_message_logic now fm st.terminalHistory
        else st.terminalHistory }
    (st', bumpActivity activity an, [fm])

/-- `WorkflowHandler._process_event_logic` (lines 218-251): dispatch on
the event type; an `error` event reports failure so the loop breaks. -/
def _process_event_logic (h : String → Int) (cfg : AgentConfig) (now : String)
    (ev : WEvent) (activity : List (String × Nat)) (st : SessionState) :
    Bool × SessionState × List (String × Nat) × List FrontendMessage :=
  match ev with
  | .message _ _ _ _ _ _ _ =>
    let r := _process_message_event_logic h cfg now ev activity st
    (true, r.1, r.2.1, r.2.2)
  | .workflowComplete _ _ => (true, st, activity, [])
  | .error _ => (false, st, activity, [])

/-- The `execution_result` dict. -/
structure ExecResult where
  success : Bool := false
  eventCount : Nat := 0
  errorMessage : String := ""
  agentActivity : List (String × Nat) := []

/-- An ASCII apostrophe. -/
def apostrophe : String := ⟨[Char.ofNat 39]⟩

/-- The idle-timeout message of lines 154-158 (`max_idle_time` is 3600
seconds, rendered as 60 minutes by `:.0f`). -/
def idleTimeoutMessage : String :=
  "⏱️ Workflow timeout: No activity for 60 minutes. " ++
  "The agent may be stuck on a slow tool or infinite loop. " ++
  "Try clicking " ++ apostrophe ++ "New Chat" ++ apostrophe ++ " and using faster tools."

/-- The corrupted-history message of lines 204-208. -/
def corruptionMessage : String :=
  "⚠️ Chat history corruption detected. " ++
  "This happens when a previous agent handoff was interrupted. " ++
  "Please click " ++ apostrophe ++ "✨ New Chat" ++ apostrophe ++
  " in the sidebar to start fresh."

/-- A timed stream event: the `asyncio` clock reading at its arrival and
its payload. -/
structure TimedEvent where
  time : Int
  event : WEvent

/-- What the `async for` loop of lines 146-182 leaves behind. -/
structure LoopOut where
  count : Nat
  tick : Nat
  activity : List (String × Nat)
  st : SessionState
  res : ExecResult
  broke : Bool

/-- The `async for` body of `execute_workflow_logic` (lines 146-182):
stop when the running flag was cleared, abort with the idle-timeout
message on a gap beyond `max_idle_time`, otherwise count the event,
append it to the history, process it and (on success) update the agent
status.  `tick` feeds each created message a fresh clock rendering. -/
def wfLoop (h : String → Int) (cfg : AgentConfig) (maxIdle : Int) :
    List TimedEvent → Int → Nat → Nat → List (String × Nat) → SessionState →
      ExecResult → LoopOut
  | [], _, count, tick, act, st, res => ⟨count, tick, act, st, res, false⟩
  | te :: rest, last, count, tick, act, st, res =>
    if st.workflowRunning = false then ⟨count, tick, act, st, res, true⟩
    else if te.time - last > maxIdle then
      ⟨count, tick, act, st, { res with errorMessage := idleTimeoutMessage }, true⟩
    else
      let count' := count + 1
      let st₁ := { st with eventHistory := st.eventHistory ++ [te.event] }
      let r := _process_event_logic h cfg (toString tick) te.event act st₁
      if r.1 then
        let st₃ := { r.2.1 with
          agent := _update_agent_status_logic (r.2.1).eventHistory (r.2.1).agent }
        wfLoop h cfg maxIdle rest te.time count' (tick + 1) r.2.2.1 st₃ res
      else ⟨count', tick + 1, r.2.2.1, r.2.1, res, true⟩

/-- Is an event the `error` variant? -/
def isErrorEvent : WEvent → Bool
  | .error _ => true
  | _ => false

/-- Does the trace run into an idle gap beyond `maxIdle` before any
`error` event breaks the loop? -/
def reachesIdleGap (maxIdle : Int) : Int → List TimedEvent → Bool
  | _, [] => false
  | last, te :: rest =>
    if te.time - last > maxIdle then true
    else if isErrorEvent te.event then false
    else reachesIdleGap maxIdle te.time rest

/-- `WorkflowHandler.execute_workflow_logic` (lines 102-216) as a
function of the timed event trace and an optional exception the stream
raises after its events were consumed.  The result is `none` when the
exception was a cooperative cancellation (it escapes `except Exception`
and propagates); the `finally` block clears `workflow_running` and
auto-saves the logger session on every path (the returned `Bool` is that
save's outcome). -/
def execute_workflow_logic (h : String → Int) (cfg : AgentConfig)
    (events : List TimedEvent) (startTime : Int) (raised : Option Exn)
    (st0 : SessionState) : Option ExecResult × SessionState × Bool :=
  let st1 := { st0 with workflowRunning := true }
  let o := wfLoop h cfg 3600 events startTime 0 0 [] st1 {}
  let main : Option ExecResult :=
    if o.broke then
      some { o.res with success := true, eventCount := o.count, agentActivity := o.activity }
    else
      match raised with
      | none =>
        some { o.res with success := true, eventCount := o.count, agentActivity := o.activity }
      | some Exn.cancelled => none
      | some (Exn.other msg) =>
        if strContains msg "INVALID_CHAT_HISTORY" ||
            strContains msg "tool_calls that do not have a corresponding ToolMessage" then
          some { o.res with errorMessage := corruptionMessage }
        else
          some { o.res with errorMessage := "Workflow execution error: " ++ msg }
  let stF := { o.st with workflowRunning := false }
  let saved :=
    match stF.loggerSession with
    | some lg => (save_session lg true).1
    | none => false
  (main, stF, saved)

/-! ## Replay (`src/src/utils/logging/replay.py` and
`src/frontend/web/core/chat_replay.py`) -/

/-- The avatar table of `ReplaySystem._get_agent_avatar` (lines 199-217),
in iteration order. -/
def agent_avatars : List (String × String) :=
  [("supervisor", "👨‍💼"), ("planner", "🧠"), ("reconnaissance", "🔍"),
   ("initial_access", "🔑"), ("summary", "📋")]

/-- `ReplaySystem._get_agent_avatar`. -/
def _get_agent_avatar (agent_name : Option String) : String :=
  if pyTruthy agent_name = false then "🤖"
  else
    let key := pyLower (agent_name.getD "")
    match agent_avatars.find? (fun ka => strContains key ka.1) with
    | some ka => ka.2
    | none => "🤖"

/-- A reconstructed frontend message as the replay side builds it. -/
structure ReplayMsg where
  type : String
  content : String
  timestamp : String
  agentId : Option String := none
  displayName : Option String := none
  avatar : Option String := none
  id : Option String := none
  toolCalls : Option (List ToolCall) := none
  toolDisplayName : Option String := none
deriving DecidableEq, Repr

/-- `ReplaySystem._convert_to_frontend_message` (lines 146-195); `ts` is
the `datetime.now().isoformat()` reading the function takes at entry and
stamps into the message (and into the synthesized replay ids). -/
def _convert_to_frontend_message (ts : String) (e : LogEvent) : Option ReplayMsg :=
  match e.event_type with
  | .user_input =>
    some { type := "user", content := e.content, timestamp := ts }
  | .agent_response =>
    let base : ReplayMsg := {
      type := "ai"
      agentId := some (if pyTruthy e.agent_name then pyLower (e.agent_name.getD "") else "agent")
      displayName := some (pyOrElse e.agent_name "Agent")
      avatar := some (_get_agent_avatar e.agent_name)
      content := e.content
      timestamp := ts
      id := some ("replay_agent_" ++ pyShowOpt e.agent_name ++ "_" ++ ts) }
    match e.tool_calls with
    | some (tc :: tcs) => some { base with toolCalls := some (tc :: tcs) }
    | _ => some base
  | .tool_command =>
    some { type := "tool", toolDisplayName := some (pyOrElse e.tool_name "Tool"),
           content := "Command: " ++ e.content, timestamp := ts,
           id := some ("replay_tool_cmd_" ++ pyShowOpt e.tool_name ++ "_" ++ ts) }
  | .tool_output =>
    some { type := "tool", toolDisplayName := some (pyOrElse e.tool_name "Tool Output"),
           content := e.content, timestamp := ts,
           id := some ("replay_tool_out_" ++ pyShowOpt e.tool_name ++ "_" ++ ts) }

/-- The message-collection pass of `ReplaySystem.execute_replay` (lines
105-125): one deterministic pass converting every event. -/
def replaySession (ts : String) (events : List LogEvent) : List ReplayMsg :=
  events.filterMap (_convert_to_frontend_message ts)

/-- Erase the clock-injected fields (`timestamp`, and the replay ids that
embed it). -/
def stripClock (m : ReplayMsg) : ReplayMsg :=
  { m with timestamp := "", id := none }

/-- `ReplayManager._convert_to_executor_event` (lines 188-236); the clock
reading lands only in the event's `timestamp` key, returned here as the
second component. -/
def _convert_to_executor_event (ts : String) (e : LogEvent) : Option (WEvent × String) :=
  match e.event_type with
  | .user_input =>
    some (WEvent.message "user" "User" e.content none none [] none, ts)
  | .agent_response =>
    let tcs := match e.tool_calls with
      | some (tc :: rest) => tc :: rest
      | _ => []
    some (WEvent.message "ai" (pyOrElse e.agent_name "Agent") e.content none none tcs none, ts)
  | .tool_command =>
    some (WEvent.message "tool" "Tool" ("Command: " ++ e.content)
      (some (pyOrElse e.tool_name "Unknown Tool")) none [] none, ts)
  | .tool_output =>
    some (WEvent.message "tool" "Tool" e.content
      (some (pyOrElse e.tool_name "Tool Output")) none [] none, ts)

/-! ## Concrete model instances and spec-side formulas -/

/-- A concrete, injective-on-lengths interpretation of Python's opaque
(process-seeded) string hash, used to instantiate the hash parameter on
concrete inputs. -/
def lengthHash (s : String) : Int := s.data.length

/-- The synthesized-identifier formula as the spec words it:
`f"{agent_name}_{hash(content[:N])}"` with a fixed truncation length
`N` applied before hashing. -/
def synthIdSpec (h : String → Int) (N : Nat) (agent_name content : String) : String :=
  agent_name ++ "_" ++ toString (h (pyTake content N))

/-- A concrete interpretation of the configuration-file lookups, used to
instantiate the config parameter on concrete inputs. -/
def plainConfig : AgentConfig := ⟨fun n => n, fun _ => "🤖"⟩

/-- Is an event the `workflow_complete` variant? -/
def isCompleteEvent : WEvent → Bool
  | .workflowComplete _ _ => true
  | _ => false

/-- Is an event the `message` variant? -/
def isMessageEvent : WEvent → Bool
  | .message _ _ _ _ _ _ _ => true
  | _ => false

/-! ## General lemmas -/

theorem str_append_right_inj (a : String) {b c : String} : a ++ b = a ++ c ↔ b = c := by
  constructor
  · intro hbc
    have h2 := congrArg String.data hbc
    simp only [String.data_append] at h2
    exact String.ext (List.append_cancel_left h2)
  · intro hh
    rw [hh]

theorem str_append_ne_empty {a : String} (b : String) (ha : a ≠ "") : a ++ b ≠ "" := by
  intro hab
  have hlen := congrArg String.length hab
  simp [String.length_append] at hlen
  refine ha (String.ext ?_)
  have : a.length = 0 := by omega
  simpa using List.length_eq_zero.mp this

theorem pyLower_eq_empty {s : String} : pyLower s = "" ↔ s = "" := by
  simp [pyLower, String.ext_iff, List.map_eq_nil_iff]

/-! ## Claim C2: agent-name normalisation -/

/-- Claim C2 (amended): `normalize_agent_name` is a pure function that
lowercases its argument and returns the first match of the fixed keyword
precedence `planner > reconnaissance > initial_access > execution >
persistence > privilege_escalation > defense_evasion > summary > tool >
supervisor`, and `""` when no keyword matches; in particular
`normalize("initial_access_swarm:uuid") = "initial_access"` and
`normalize("totally_unknown:uuid") = ""`, while
`normalize("recon_node:uuid") = ""` (the keyword is the full word
`reconnaissance`, which `recon_node` does not contain). -/
theorem C2_agent_name_normalization :
    (∀ s, normalize_agent_name s = normalizeSpec s) ∧
    normalize_agent_name "initial_access_swarm:uuid" = "initial_access" ∧
    normalize_agent_name "recon_node:uuid" = "" ∧
    normalize_agent_name "totally_unknown:uuid" = "" := by
  refine ⟨fun s => ?_, by decide, by decide, by decide⟩
  by_cases h0 : s = ""
  · simp [normalize_agent_name, normalizeSpec, h0]
  · simp [normalize_agent_name, normalizeSpec, h0, firstMatch, keywordPrecedence, or_assoc]

/-- Claim C2, counterexample: the claim says
`normalize("recon_node:uuid") = "reconnaissance"`, but the normaliser
checks for the substring `"reconnaissance"` (there is no `"recon"`
keyword), so the name does not match and `""` is returned. -/
theorem C2_counterexample :
    ¬ (normalize_agent_name "recon_node:uuid" = "reconnaissance") := by decide

/-! ## Claim C9: empty-session discard -/

/-- Claim C9: `save_session` writes nothing and returns `False` when
there is no current session or it has zero events; a session is written
(and `True` returned) only when it holds at least one event. -/
theorem C9_empty_session_discard :
    (∀ diskOk, save_session none diskOk = (false, [])) ∧
    (∀ s diskOk, s.events = [] → save_session (some s) diskOk = (false, [])) ∧
    (∀ cur diskOk, (save_session cur diskOk).1 = true →
      ∃ s, cur = some s ∧ s.events ≠ [] ∧ (save_session cur diskOk).2 = [s]) ∧
    (∀ cur diskOk s, s ∈ (save_session cur diskOk).2 →
      s.events ≠ [] ∧ (save_session cur diskOk).1 = true) := by
  refine ⟨fun d => rfl, fun s d hs => by simp [save_session, hs], ?_, ?_⟩
  · intro cur d hd
    match cur with
    | none => simp [save_session] at hd
    | some s =>
      by_cases he : s.events = []
      · simp [save_session, he] at hd
      · refine ⟨s, rfl, he, ?_⟩
        by_cases hdk : d = true
        · simp [save_session, he, hdk]
        · simp [save_session, he, hdk] at hd
  · intro cur d s hs
    match cur with
    | none => simp [save_session] at hs
    | some t =>
      by_cases he : t.events = []
      · simp [save_session, he] at hs
      · by_cases hdk : d = true
        · simp [save_session, he, hdk] at hs
          subst hs
          exact ⟨he, by simp [save_session, he, hdk]⟩
        · simp [save_session, he, hdk] at hs

/-- Claim C9, witness: a concrete empty session is discarded. -/
theorem C9_witness :
    save_session (some ⟨"sid", "2025-10-12T00:00:00", [], none⟩) true = (false, []) :=
  C9_empty_session_discard.2.1 ⟨"sid", "2025-10-12T00:00:00", [], none⟩ true rfl

/-! ## Claim C5: the synthesized dedupe identifier -/

/-- Claim C5 (amended): when a raw message carries no graph-native id,
the Message Classifier synthesizes its dedupe identifier as
`f"{agent_name}_{hash(str(content))}"`, hashing the **full** extracted
content with no truncation; two id-less messages from the same agent
collide (second one suppressed) exactly when the rendered hashes of
their full contents coincide. -/
theorem C5_synthesized_id_full_content (h : String → Int) (agent c₁ c₂ : String) :
    (∀ m : RawMessage, m.id = none →
      deriveMessageId h m agent = agent ++ "_" ++ toString (h m.content)) ∧
    ((classifyList h [({ kind := .ai, id := none, content := c₁ }, agent),
        ({ kind := .ai, id := none, content := c₂ }, agent)] []).1.get? 0 =
      some (true, some "ai")) ∧
    ((classifyList h [({ kind := .ai, id := none, content := c₁ }, agent),
        ({ kind := .ai, id := none, content := c₂ }, agent)] []).1.get? 1 =
          some (false, none) ↔
      toString (h c₁) = toString (h c₂)) ∧
    (h c₁ = h c₂ →
      (classifyList h [({ kind := .ai, id := none, content := c₁ }, agent),
          ({ kind := .ai, id := none, content := c₂ }, agent)] []).1.get? 1 =
        some (false, none)) := by
  have hids : (agent ++ "_" ++ toString (h c₂) = agent ++ "_" ++ toString (h c₁)) ↔
      toString (h c₂) = toString (h c₁) := by
    rw [str_append_right_inj (agent ++ "_")]
  refine ⟨fun m hm => by simp [deriveMessageId, hm], ?_, ?_, ?_⟩
  · simp [classifyList, shouldDisplayMessage, deriveMessageId]
  · by_cases heq : toString (h c₁) = toString (h c₂)
    · simp [classifyList, shouldDisplayMessage, deriveMessageId, heq]
    · have hne : ¬ (agent ++ "_" ++ toString (h c₂) = agent ++ "_" ++ toString (h c₁)) := by
        rw [hids]
        exact fun hx => heq hx.symm
      simp [classifyList, shouldDisplayMessage, deriveMessageId, hne, heq]
  · intro hcc
    simp [classifyList, shouldDisplayMessage, deriveMessageId, hcc]

/-- Claim C5, witness: at a concrete hash interpretation and content,
an id-less message gets the full-content identifier, and a repeat of the
same content from the same agent is suppressed. -/
theorem C5_witness :
    deriveMessageId lengthHash { kind := MsgKind.ai, id := none, content := "abc" } "recon" =
      "recon" ++ "_" ++ toString (lengthHash "abc") ∧
    (classifyList lengthHash
        [({ kind := MsgKind.ai, id := none, content := "abc" }, "recon"),
         ({ kind := MsgKind.ai, id := none, content := "abc" }, "recon")] []).1.get? 1 =
      some (false, none) :=
  ⟨(C5_synthesized_id_full_content lengthHash "recon" "abc" "abc").1 _ rfl,
   (C5_synthesized_id_full_content lengthHash "recon" "abc" "abc").2.2.2 rfl⟩

/-- Claim C5, counterexample: under the concrete hash interpretation
`lengthHash`, the identifier the code synthesizes for an id-less message
with content `"0123456789"` differs from the spec's truncated-hash
formula at **every** truncation length `N < 10`; and two same-agent
messages agreeing on their first five characters do **not** collide. -/
theorem C5_counterexample :
    ((List.range 10).all (fun N =>
      deriveMessageId lengthHash
          { kind := MsgKind.ai, id := none, content := "0123456789" } "recon"
        != synthIdSpec lengthHash N "recon" "0123456789")) = true ∧
    deriveMessageId lengthHash
        { kind := MsgKind.ai, id := none, content := "aaaaaXXXX" } "recon" ≠
      deriveMessageId lengthHash
        { kind := MsgKind.ai, id := none, content := "aaaaaYYYYZZ" } "recon" :=
  ⟨by decide, by decide⟩

/-! ## Claim C6: replay determinism -/

/-- `_convert_to_frontend_message` is clock-independent once the
clock-injected fields are erased. -/
theorem conv_strip_clock (ts ts' : String) (e : LogEvent) :
    (_convert_to_frontend_message ts e).map stripClock =
      (_convert_to_frontend_message ts' e).map stripClock := by
  cases he : e.event_type
  case user_input => simp [_convert_to_frontend_message, he, stripClock]
  case agent_response =>
    cases htc : e.tool_calls with
    | none => simp [_convert_to_frontend_message, he, htc, stripClock]
    | some l =>
      cases l with
      | nil => simp [_convert_to_frontend_message, he, htc, stripClock]
      | cons tc tcs => simp [_convert_to_frontend_message, he, htc, stripClock]
  case tool_command => simp [_convert_to_frontend_message, he, stripClock]
  case tool_output => simp [_convert_to_frontend_message, he, stripClock]

/-- `_convert_to_executor_event`'s payload (first component) is
clock-independent. -/
theorem conv_exec_fst (ts ts' : String) (e : LogEvent) :
    (_convert_to_executor_event ts e).map Prod.fst =
      (_convert_to_executor_event ts' e).map Prod.fst := by
  cases he : e.event_type <;> simp [_convert_to_executor_event, he]

/-- Claim C6 (amended): replay is a deterministic, single-pass function
of the persisted session and the conversion-time clock reading; two runs
over the same session produce identical reconstructed sequences up to the
injected wall-clock `timestamp`/`id` fields, and the event mapping
(`user_input` → user message, `agent_response` → ai message with restored
`tool_calls`, `tool_command` → tool message prefixed `"Command: "`,
`tool_output` → tool message with raw content) is a pure function of the
session alone. -/
theorem C6_replay_deterministic_modulo_clock :
    (∀ ts ts' events, (replaySession ts events).map stripClock =
      (replaySession ts' events).map stripClock) ∧
    (∀ (ts ts' : String) (events : List LogEvent),
      (events.filterMap (_convert_to_executor_event ts)).map Prod.fst =
        (events.filterMap (_convert_to_executor_event ts')).map Prod.fst) ∧
    (∀ ts e, e.event_type = EventType.user_input →
      _convert_to_frontend_message ts e =
        some { type := "user", content := e.content, timestamp := ts }) ∧
    (∀ ts e m, e.event_type = EventType.agent_response →
      _convert_to_frontend_message ts e = some m →
      m.type = "ai" ∧ m.content = e.content ∧
      (∀ tc tcs, e.tool_calls = some (tc :: tcs) → m.toolCalls = some (tc :: tcs))) ∧
    (∀ ts e m, e.event_type = EventType.tool_command →
      _convert_to_frontend_message ts e = some m →
      m.type = "tool" ∧ m.content = "Command: " ++ e.content) ∧
    (∀ ts e m, e.event_type = EventType.tool_output →
      _convert_to_frontend_message ts e = some m →
      m.type = "tool" ∧ m.content = e.content) := by
  refine ⟨?_, ?_, ?_, ?_, ?_, ?_⟩
  · intro ts ts' events
    rw [replaySession, replaySession, List.map_filterMap, List.map_filterMap]
    exact List.filterMap_congr (fun e _ => conv_strip_clock ts ts' e)
  · intro ts ts' events
    rw [List.map_filterMap, List.map_filterMap]
    exact List.filterMap_congr (fun e _ => conv_exec_fst ts ts' e)
  · intro ts e he
    simp [_convert_to_frontend_message, he]
  · intro ts e m he hm
    cases htc : e.tool_calls with
    | none =>
      simp [_convert_to_frontend_message, he, htc] at hm
      subst hm
      simp [htc]
    | some l =>
      cases l with
      | nil =>
        simp [_convert_to_frontend_message, he, htc] at hm
        subst hm
        simp [htc]
      | cons tc tcs =>
        simp [_convert_to_frontend_message, he, htc] at hm
        subst hm
        simp [htc]
  · intro ts e m he hm
    simp [_convert_to_frontend_message, he] at hm
    subst hm
    simp
  · intro ts e m he hm
    simp [_convert_to_frontend_message, he] at hm
    subst hm
    simp

/-- Claim C6, witness: the mapping facts at concrete persisted events. -/
theorem C6_witness :
    _convert_to_frontend_message "T"
        { event_type := EventType.user_input, timestamp := "x", content := "hi" } =
      some { type := "user", content := "hi", timestamp := "T" } ∧
    ((_convert_to_frontend_message "T"
        { event_type := EventType.tool_command, timestamp := "x", content := "ls",
          tool_name := some "terminal" }).get rfl).content = "Command: " ++ "ls" :=
  ⟨C6_replay_deterministic_modulo_clock.2.2.1 "T"
     { event_type := EventType.user_input, timestamp := "x", content := "hi" } rfl,
   (C6_replay_deterministic_modulo_clock.2.2.2.2.1 "T"
     { event_type := EventType.tool_command, timestamp := "x", content := "ls",
       tool_name := some "terminal" } _ rfl rfl).2⟩

/-- Claim C6, counterexample: converting the same persisted session at
two different clock readings (two runs) yields sequences that are not
identical — the injected `timestamp` field differs. -/
theorem C6_counterexample :
    replaySession "2025-01-01T00:00:00"
        [{ event_type := EventType.user_input, timestamp := "t", content := "hi" }] ≠
      replaySession "2025-01-01T00:00:01"
        [{ event_type := EventType.user_input, timestamp := "t", content := "hi" }] := by
  decide

/-! ## Claim C7: terminal projection -/

theorem not_mem_replaceChar_self {c : Char} {r : List Char} (hr : c ∉ r) :
    ∀ l, c ∉ replaceChar c r l := by
  intro l
  induction l with
  | nil => simp [replaceChar]
  | cons x xs ih =>
    by_cases hx : x = c
    · subst hx
      simp [replaceChar, hr, ih]
    · simp [replaceChar, hx, ih]
      exact fun hh => hx hh.symm

theorem not_mem_replaceChar {x c : Char} {r : List Char} (hxr : x ∉ r) :
    ∀ {l}, x ∉ l → x ∉ replaceChar c r l := by
  intro l
  induction l with
  | nil => intro _; simp [replaceChar]
  | cons y ys ih =>
    intro hxl
    have hxy : x ≠ y := fun hh => hxl (hh ▸ List.mem_cons_self y ys)
    have hxys : x ∉ ys := fun hh => hxl (List.mem_cons_of_mem y hh)
    by_cases hy : y = c
    · subst hy
      simp [replaceChar, hxr, ih hxys]
    · simp [replaceChar, hy, ih hxys, hxy]

theorem replaceChar_of_not_mem {c : Char} (r : List Char) :
    ∀ {l}, c ∉ l → replaceChar c r l = l := by
  intro l
  induction l with
  | nil => intro _; simp [replaceChar]
  | cons y ys ih =>
    intro hcl
    have hcy : y ≠ c := fun hh => hcl (hh ▸ List.mem_cons_self y ys)
    have hcys : c ∉ ys := fun hh => hcl (List.mem_cons_of_mem y hh)
    simp [replaceChar, hcy, ih hcys]

/-- `sanitize_output` leaves no `<` or `>` when the input has no newline
(newlines are rendered as `<br>`, which reintroduces both). -/
theorem sanitize_no_angle {s : String} (hnl : '\n' ∉ s.data) :
    '<' ∉ (sanitize_output s).data ∧ '>' ∉ (sanitize_output s).data := by
  have h0 : ('\n' : Char) ∉ "&amp;".data := by decide
  have h1 : ('\n' : Char) ∉ "&lt;".data := by decide
  have h2 : ('\n' : Char) ∉ "&gt;".data := by decide
  have hlt1 : ('<' : Char) ∉ "&lt;".data := by decide
  have hlt2 : ('<' : Char) ∉ "&gt;".data := by decide
  have hgt1 : ('>' : Char) ∉ "&gt;".data := by decide
  set l1 := replaceChar '&' "&amp;".data s.data with hl1
  set l2 := replaceChar '<' "&lt;".data l1 with hl2
  set l3 := replaceChar '>' "&gt;".data l2 with hl3
  have hn1 : '\n' ∉ l1 := not_mem_replaceChar h0 hnl
  have hn2 : '\n' ∉ l2 := not_mem_replaceChar h1 hn1
  have hn3 : '\n' ∉ l3 := not_mem_replaceChar h2 hn2
  have hlt : '<' ∉ l2 := not_mem_replaceChar_self hlt1 l1
  have hlt' : '<' ∉ l3 := not_mem_replaceChar hlt2 hlt
  have hgt : '>' ∉ l3 := not_mem_replaceChar_self hgt1 l2
  have hid : replaceChar '\n' "<br>".data l3 = l3 := replaceChar_of_not_mem _ hn3
  constructor
  · show '<' ∉ (replaceChar '\n' "<br>".data l3)
    rw [hid]
    exact hlt'
  · show '>' ∉ (replaceChar '\n' "<br>".data l3)
    rw [hid]
    exact hgt

/-- Every `output` entry `_process_terminal_tool_message` emits passes
through `sanitize_output`. -/
theorem ptm_output_sanitized {ts t c : String} {en : TerminalEntry}
    (hen : en ∈ _process_terminal_tool_message ts t c) (hty : en.type = "output") :
    ∃ raw, en.content = sanitize_output raw := by
  rw [_process_terminal_tool_message] at hen
  split at hen
  case h_1 cleaned rest heq =>
    dsimp only at hen
    split at hen
    · simp at hen
      rcases hen with hen | hen
      · rw [hen] at hty
        simp at hty
      · exact ⟨_, by rw [hen]⟩
    · simp at hen
      rw [hen] at hty
      simp at hty
  case h_2 heq =>
    split at hen
    · simp at hen
      rcases hen with hen | hen
      · rw [hen] at hty
        simp at hty
      · exact ⟨_, by rw [hen]⟩
    · simp at hen

/-- Every `output` entry `process_frontend_messages` emits passes through
`sanitize_output`. -/
theorem pfm_output_sanitized (ts : String) :
    ∀ (msgs : List FrontendMessage) (processed : List String) (en : TerminalEntry),
      en ∈ (process_frontend_messages ts msgs processed).1 → en.type = "output" →
      ∃ raw, en.content = sanitize_output raw := by
  intro msgs
  induction msgs with
  | nil =>
    intro p en hen _
    simp [process_frontend_messages] at hen
  | cons m rest ih =>
    intro p en hen hty
    rw [process_frontend_messages] at hen
    by_cases h1 : m.id ∈ p
    · rw [if_pos h1] at hen
      exact ih p en hen hty
    · rw [if_neg h1] at hen
      by_cases h2 : m.type = "tool"
      · rw [if_pos h2] at hen
        simp only [List.mem_append] at hen
        rcases hen with hen | hen
        · by_cases h3 : _is_terminal_tool (m.toolDisplayName.getD "Tool") = true
          · rw [if_pos h3] at hen
            exact ptm_output_sanitized hen hty
          · rw [if_neg h3] at hen
            split at hen
            · simp at hen
              rcases hen with hen | hen
              · rw [hen] at hty
                simp at hty
              · exact ⟨_, by rw [hen]⟩
            · simp at hen
        · exact ih (m.id :: p) en hen hty
      · rw [if_neg h2] at hen
        exact ih p en hen hty

/-- Claim C7 (amended): the terminal-tool example projects to exactly one
`command` entry `nmap -sV 10.0.0.1` followed by one `output` entry with
the escaped remainder; the non-terminal example's output entry is the
HTML-escaped `&lt;script&gt;alert(1)&lt;/script&gt;`; every `output`
entry's content passes through `sanitize_output`, and for newline-free
sanitizer input no `<` or `>` appears at all (newlines, however, are
rendered as literal `<br>`, which reintroduces those characters). -/
theorem C7_terminal_projection :
    ((process_frontend_messages ""
      [{ type := "tool", content := "$ nmap -sV 10.0.0.1\nopen 22/tcp ssh", id := "m1",
         toolDisplayName := some "Terminal" }] []).1 =
      [⟨"command", "nmap -sV 10.0.0.1", ""⟩, ⟨"output", "open 22/tcp ssh", ""⟩]) ∧
    ((process_frontend_messages ""
      [{ type := "tool", content := "<script>alert(1)</script>", id := "m2",
         toolDisplayName := some "Web Search" }] []).1 =
      [⟨"command", "Web Search", ""⟩,
       ⟨"output", "&lt;script&gt;alert(1)&lt;/script&gt;", ""⟩]) ∧
    (∀ s : String, '\n' ∉ s.data →
      '<' ∉ (sanitize_output s).data ∧ '>' ∉ (sanitize_output s).data) ∧
    (∀ (ts : String) (msgs : List FrontendMessage) (processed : List String)
        (en : TerminalEntry),
      en ∈ (process_frontend_messages ts msgs processed).1 → en.type = "output" →
      ∃ raw, en.content = sanitize_output raw) :=
  ⟨by decide, by decide, fun _ hnl => sanitize_no_angle hnl,
   fun ts msgs p en h1 h2 => pfm_output_sanitized ts msgs p en h1 h2⟩

/-- Claim C7, witness: the escape guarantee at concrete inputs. -/
theorem C7_witness :
    ('<' ∉ (sanitize_output "a&b<c>d").data ∧ '>' ∉ (sanitize_output "a&b<c>d").data) ∧
    (∃ raw, (⟨"output", sanitize_output "x", ""⟩ : TerminalEntry).content =
      sanitize_output raw) :=
  ⟨C7_terminal_projection.2.2.1 "a&b<c>d" (by decide),
   C7_terminal_projection.2.2.2 ""
     [{ type := "tool", content := "x", id := "m", toolDisplayName := some "Files" }] []
     ⟨"output", sanitize_output "x", ""⟩ (by decide) rfl⟩

/-- Claim C7, counterexample: a tool message whose content holds a
newline produces an `output` entry `x<br>y` — raw `<` and `>` survive in
the entry's content, refuting the for-every-input no-`<`/`>` clause. -/
theorem C7_counterexample :
    (process_frontend_messages ""
      [{ type := "tool", content := "x\ny", id := "m3",
         toolDisplayName := some "Web Search" }] []).1 =
      [⟨"command", "Web Search", ""⟩, ⟨"output", "x<br>y", ""⟩] ∧
    '<' ∈ "x<br>y".data ∧ '>' ∈ "x<br>y".data := by
  decide

/-! ## Claim C1: dedupe idempotence of the Message Classifier -/


theorem shouldDisplay_eq (h : String → Int) (m : RawMessage) (a : String) (p : List String) :
    shouldDisplayMessage h m a p =
      (if deriveMessageId h m a ∈ p then ((false, none), p)
       else ((true, some (msgRole m.kind)), deriveMessageId h m a :: p)) := by
  rcases m with ⟨k, i, c, n, t⟩
  cases k <;> simp [shouldDisplayMessage, msgRole]

theorem classifyList_length (h : String → Int) :
    ∀ (l : List (RawMessage × String)) (p : List String),
      ((classifyList h l p).1).length = l.length := by
  intro l
  induction l with
  | nil => intro p; rfl
  | cons e rest ih =>
    intro p
    rcases e with ⟨m, a⟩
    simp [classifyList, ih]

theorem classifyList_append (h : String → Int) :
    ∀ (l₁ l₂ : List (RawMessage × String)) (p : List String),
      classifyList h (l₁ ++ l₂) p =
        ((classifyList h l₁ p).1 ++ (classifyList h l₂ (classifyList h l₁ p).2).1,
         (classifyList h l₂ (classifyList h l₁ p).2).2) := by
  intro l₁
  induction l₁ with
  | nil => intro l₂ p; simp [classifyList]
  | cons e rest ih =>
    intro l₂ p
    rcases e with ⟨m, a⟩
    simp [classifyList, ih]

theorem subset_state_shouldDisplay (h : String → Int) (m : RawMessage) (a : String)
    (p : List String) {q : String} (hq : q ∈ p) : q ∈ (shouldDisplayMessage h m a p).2 := by
  rw [shouldDisplay_eq]
  split_ifs with hmem
  · exact hq
  · exact List.mem_cons_of_mem _ hq

theorem mem_state_shouldDisplay (h : String → Int) (m : RawMessage) (a : String)
    (p : List String) : deriveMessageId h m a ∈ (shouldDisplayMessage h m a p).2 := by
  rw [shouldDisplay_eq]
  split_ifs with hmem
  · exact hmem
  · exact List.mem_cons_self _ _

theorem state_cases_shouldDisplay (h : String → Int) (m : RawMessage) (a : String)
    (p : List String) {q : String} (hq : q ∈ (shouldDisplayMessage h m a p).2) :
    q ∈ p ∨ q = deriveMessageId h m a := by
  rw [shouldDisplay_eq] at hq
  split_ifs at hq with hmem
  · exact Or.inl hq
  · rcases List.mem_cons.mp hq with hq | hq
    · exact Or.inr hq
    · exact Or.inl hq

theorem subset_state_classify (h : String → Int) :
    ∀ (l : List (RawMessage × String)) (p : List String) {q : String},
      q ∈ p → q ∈ (classifyList h l p).2 := by
  intro l
  induction l with
  | nil => intro p q hq; exact hq
  | cons e rest ih =>
    intro p q hq
    rcases e with ⟨m, a⟩
    simp only [classifyList]
    exact ih _ (subset_state_shouldDisplay h m a p hq)

theorem mem_state_classify (h : String → Int) :
    ∀ (l : List (RawMessage × String)) (p : List String) {e : RawMessage × String},
      e ∈ l → deriveMessageId h e.1 e.2 ∈ (classifyList h l p).2 := by
  intro l
  induction l with
  | nil => intro p e he; simp at he
  | cons f rest ih =>
    intro p e he
    rcases f with ⟨m, a⟩
    simp only [classifyList]
    rcases List.mem_cons.mp he with he | he
    · subst he
      exact subset_state_classify h rest _ (mem_state_shouldDisplay h m a p)
    · exact ih _ he

theorem state_cases_classify (h : String → Int) :
    ∀ (l : List (RawMessage × String)) (p : List String) {q : String},
      q ∈ (classifyList h l p).2 → q ∈ p ∨ ∃ e ∈ l, q = deriveMessageId h e.1 e.2 := by
  intro l
  induction l with
  | nil => intro p q hq; exact Or.inl hq
  | cons f rest ih =>
    intro p q hq
    rcases f with ⟨m, a⟩
    simp only [classifyList] at hq
    rcases ih _ hq with hq' | ⟨e, he, heq⟩
    · rcases state_cases_shouldDisplay h m a p hq' with hq'' | hq''
      · exact Or.inl hq''
      · exact Or.inr ⟨(m, a), List.mem_cons_self _ _, hq''⟩
    · exact Or.inr ⟨e, List.mem_cons_of_mem _ he, heq⟩

/-- Claim C1: within one workflow execution call (the seen-id set starts
empty — line 136 resets it, so the events are independent of any prior
set, third conjunct), a message whose dedupe identifier was already
observed is suppressed (`(False, None)`), while the first observation of
an identifier is emitted with the message's role. -/
theorem C1_dedupe_idempotence (h : String → Int)
    (pre mid post : List (RawMessage × String)) (x y : RawMessage × String)
    (hid : deriveMessageId h y.1 y.2 = deriveMessageId h x.1 x.2)
    (hfirst : ∀ e ∈ pre, deriveMessageId h e.1 e.2 ≠ deriveMessageId h x.1 x.2) :
    ((classifyList h (pre ++ x :: (mid ++ y :: post)) []).1)[pre.length]? =
        some (true, some (msgRole x.1.kind)) ∧
    ((classifyList h (pre ++ x :: (mid ++ y :: post)) []).1)[pre.length + 1 + mid.length]? =
        some (false, none) ∧
    (∀ prior outcome metrics,
      execute_workflow h prior outcome metrics = execute_workflow h [] outcome metrics) := by
  obtain ⟨xm, xa⟩ := x
  obtain ⟨ym, ya⟩ := y
  simp only at hid hfirst
  have hlenpre : ((classifyList h pre []).1).length = pre.length := classifyList_length h pre []
  have hxp : deriveMessageId h xm xa ∉ (classifyList h pre []).2 := by
    intro hmem
    rcases state_cases_classify h pre [] hmem with h0 | ⟨e, he, heq⟩
    · simp at h0
    · exact hfirst e he heq.symm
  have hrw := classifyList_append h pre ((xm, xa) :: (mid ++ (ym, ya) :: post)) []
  refine ⟨?_, ?_, fun prior o m => rfl⟩
  · rw [hrw]
    simp only [classifyList]
    rw [shouldDisplay_eq, if_neg hxp]
    rw [List.getElem?_append_right (by omega)]
    simp [hlenpre]
  · rw [hrw]
    simp only [classifyList]
    rw [shouldDisplay_eq, if_neg hxp]
    have hmidrw := classifyList_append h mid ((ym, ya) :: post)
      (deriveMessageId h xm xa :: (classifyList h pre []).2)
    rw [hmidrw]
    simp only [classifyList]
    have hyin : deriveMessageId h ym ya ∈
        (classifyList h mid (deriveMessageId h xm xa :: (classifyList h pre []).2)).2 := by
      rw [hid]
      exact subset_state_classify h mid _ (List.mem_cons_self _ _)
    rw [shouldDisplay_eq, if_pos hyin]
    have hlenmid : ((classifyList h mid
        (deriveMessageId h xm xa :: (classifyList h pre []).2)).1).length = mid.length :=
      classifyList_length h mid _
    rw [List.getElem?_append_right (by omega)]
    have hsub : pre.length + 1 + mid.length - ((classifyList h pre []).1).length =
        mid.length + 1 := by omega
    rw [hsub]
    rw [List.getElem?_cons_succ]
    rw [List.getElem?_append_right (by omega)]
    simp [hlenmid]

/-- Claim C1, witness: a concrete repeated native id — emitted with its
role on the first observation, suppressed on the second. -/
theorem C1_witness :
    ((classifyList lengthHash
      [({ kind := MsgKind.ai, id := some "id1", content := "c" }, "recon"),
       ({ kind := MsgKind.ai, id := some "id1", content := "c" }, "recon")] []).1)[0]? =
        some (true, some "ai") ∧
    ((classifyList lengthHash
      [({ kind := MsgKind.ai, id := some "id1", content := "c" }, "recon"),
       ({ kind := MsgKind.ai, id := some "id1", content := "c" }, "recon")] []).1)[1]? =
        some (false, none) :=
  ⟨(C1_dedupe_idempotence lengthHash [] [] []
      ({ kind := MsgKind.ai, id := some "id1", content := "c" }, "recon")
      ({ kind := MsgKind.ai, id := some "id1", content := "c" }, "recon")
      rfl (by simp)).1,
   (C1_dedupe_idempotence lengthHash [] [] []
      ({ kind := MsgKind.ai, id := some "id1", content := "c" }, "recon")
      ({ kind := MsgKind.ai, id := some "id1", content := "c" }, "recon")
      rfl (by simp)).2.1⟩

/-! ## Claim C3: terminal events of `execute_workflow` -/


theorem processNodes_only_messages (h : String → Int) (agent : String) :
    ∀ (nodes : List (String × Option (List RawMessage))) (p : List String) {ev : WEvent},
      ev ∈ (processNodes h agent nodes p).1 → isMessageEvent ev = true := by
  intro nodes
  induction nodes with
  | nil => intro p ev hev; simp [processNodes] at hev
  | cons nv rest ih =>
    intro p ev hev
    rcases nv with ⟨n, v⟩
    simp only [processNodes] at hev
    match v with
    | none => exact ih p hev
    | some msgs =>
      simp only at hev
      match hml : msgs.getLast? with
      | none => rw [hml] at hev; exact ih p hev
      | some latest =>
        rw [hml] at hev
        dsimp only at hev
        split at hev
        · rcases List.mem_cons.mp hev with hev | hev
          · rw [hev]; rfl
          · exact ih _ hev
        · exact ih _ hev

theorem processItems_only_messages (h : String → Int) :
    ∀ (items : List StreamItem) (n : Nat) (p : List String) {ev : WEvent},
      ev ∈ (processItems h items n p).1 → isMessageEvent ev = true := by
  intro items
  induction items with
  | nil => intro n p ev hev; simp [processItems] at hev
  | cons item rest ih =>
    intro n p ev hev
    rw [processItems] at hev
    dsimp only at hev
    rcases List.mem_append.mp hev with hev | hev
    · exact processNodes_only_messages h _ _ _ hev
    · exact ih _ _ hev

theorem processItems_step (h : String → Int) :
    ∀ (items : List StreamItem) (n : Nat) (p : List String),
      (processItems h items n p).2.1 = n + items.length := by
  intro items
  induction items with
  | nil => intro n p; simp [processItems]
  | cons item rest ih =>
    intro n p
    rw [processItems]
    dsimp only
    rw [ih]
    simp
    omega

/-- Claim C3: when the update stream is exhausted without exception the
generator yields exactly one terminal `workflow_complete` event (carrying
the tick count and the accumulated metrics) and no `error` event, and
re-raises nothing; when an exception is raised during streaming it yields
exactly one terminal `error` event whose error field is the stringified
cause, re-raising only cooperative cancellation. -/
theorem C3_terminal_event_discipline (h : String → Int) (metrics : Metrics) :
    (∀ (prior : List String) (items : List StreamItem),
      (execute_workflow h prior (StreamOutcome.done items) metrics).1.getLast? =
          some (WEvent.workflowComplete items.length metrics) ∧
      ((execute_workflow h prior (StreamOutcome.done items) metrics).1.filter
          isCompleteEvent).length = 1 ∧
      ((execute_workflow h prior (StreamOutcome.done items) metrics).1.filter
          isErrorEvent).length = 0 ∧
      (execute_workflow h prior (StreamOutcome.done items) metrics).2 = none) ∧
    (∀ (prior : List String) (items : List StreamItem) (exn : Exn),
      (execute_workflow h prior (StreamOutcome.failed items exn) metrics).1.getLast? =
          some (WEvent.error (exnText exn)) ∧
      ((execute_workflow h prior (StreamOutcome.failed items exn) metrics).1.filter
          isErrorEvent).length = 1 ∧
      ((execute_workflow h prior (StreamOutcome.failed items exn) metrics).1.filter
          isCompleteEvent).length = 0 ∧
      ((execute_workflow h prior (StreamOutcome.failed items exn) metrics).2 =
        if exn = Exn.cancelled then some Exn.cancelled else none)) := by
  have hmsgC : ∀ (items : List StreamItem),
      (processItems h items 0 []).1.filter isCompleteEvent = [] := by
    intro items
    rw [List.filter_eq_nil_iff]
    intro ev hev
    have := processItems_only_messages h items 0 [] hev
    cases ev <;> simp_all [isMessageEvent, isCompleteEvent]
  have hmsgE : ∀ (items : List StreamItem),
      (processItems h items 0 []).1.filter isErrorEvent = [] := by
    intro items
    rw [List.filter_eq_nil_iff]
    intro ev hev
    have := processItems_only_messages h items 0 [] hev
    cases ev <;> simp_all [isMessageEvent, isErrorEvent]
  constructor
  · intro prior items
    refine ⟨?_, ?_, ?_, rfl⟩
    · show ((processItems h items 0 []).1 ++
          [WEvent.workflowComplete (processItems h items 0 []).2.1 metrics]).getLast? = _
      rw [List.getLast?_concat, processItems_step]
      simp
    · show (((processItems h items 0 []).1 ++
          [WEvent.workflowComplete (processItems h items 0 []).2.1 metrics]).filter
            isCompleteEvent).length = 1
      rw [List.filter_append, hmsgC]
      simp [isCompleteEvent]
    · show (((processItems h items 0 []).1 ++
          [WEvent.workflowComplete (processItems h items 0 []).2.1 metrics]).filter
            isErrorEvent).length = 0
      rw [List.filter_append, hmsgE]
      simp [isErrorEvent]
  · intro prior items exn
    refine ⟨?_, ?_, ?_, rfl⟩
    · show ((processItems h items 0 []).1 ++ [WEvent.error (exnText exn)]).getLast? = _
      rw [List.getLast?_concat]
    · show (((processItems h items 0 []).1 ++ [WEvent.error (exnText exn)]).filter
          isErrorEvent).length = 1
      rw [List.filter_append, hmsgE]
      simp [isErrorEvent]
    · show (((processItems h items 0 []).1 ++ [WEvent.error (exnText exn)]).filter
          isCompleteEvent).length = 0
      rw [List.filter_append, hmsgC]
      simp [isCompleteEvent]

/-! ## Claim C4: the agent-activity transition law -/


/-- Claim C4: processing AI-message events with resolved agents
`[A, A, B, B, C]` (pairwise distinct, usable names) ends with
`active_agent = C` and `completed_agents = [A, B]`; a self-transition is
a no-op on `(active_agent, completed_agents)`. -/
theorem C4_agent_transition_law (a b c : String)
    (ha : a ≠ "") (ha' : a ≠ "Unknown") (hb : b ≠ "") (hb' : b ≠ "Unknown")
    (hc : c ≠ "") (hc' : c ≠ "Unknown")
    (hab : pyLower a ≠ pyLower b) (hbc : pyLower b ≠ pyLower c)
    (hac : pyLower a ≠ pyLower c) :
    ((runAgentEvents [aiEv a, aiEv a, aiEv b, aiEv b, aiEv c] [] {}).2.activeAgent =
        some (pyLower c) ∧
     (runAgentEvents [aiEv a, aiEv a, aiEv b, aiEv b, aiEv c] [] {}).2.completedAgents =
        [pyLower a, pyLower b]) ∧
    (∀ (hist : List WEvent) (s : AgentStatus), findActiveAgent hist = s.activeAgent →
      (_update_agent_status_logic hist s).activeAgent = s.activeAgent ∧
      (_update_agent_status_logic hist s).completedAgents = s.completedAgents) := by
  have hla : pyLower a ≠ "" := fun hh => ha (pyLower_eq_empty.mp hh)
  have hlb : pyLower b ≠ "" := fun hh => hb (pyLower_eq_empty.mp hh)
  have hba : pyLower b ≠ pyLower a := fun hh => hab hh.symm
  have hcb : pyLower c ≠ pyLower b := fun hh => hbc hh.symm
  constructor
  · have hu1 : _update_agent_status_logic [aiEv a] {} =
        ⟨some (pyLower a), [], false⟩ := by
      simp [_update_agent_status_logic, findActiveAgent, findActiveAgentRev, aiEv,
        ha, ha', hla, pyTruthy]
    have hu2 : _update_agent_status_logic [aiEv a, aiEv a] ⟨some (pyLower a), [], false⟩ =
        ⟨some (pyLower a), [], false⟩ := by
      simp [_update_agent_status_logic, findActiveAgent, findActiveAgentRev, aiEv,
        ha, ha', pyTruthy]
    have hu3 : _update_agent_status_logic [aiEv a, aiEv a, aiEv b]
        ⟨some (pyLower a), [], false⟩ = ⟨some (pyLower b), [pyLower a], false⟩ := by
      simp [_update_agent_status_logic, findActiveAgent, findActiveAgentRev, aiEv,
        hb, hb', hla, pyTruthy, hba]
    have hu4 : _update_agent_status_logic [aiEv a, aiEv a, aiEv b, aiEv b]
        ⟨some (pyLower b), [pyLower a], false⟩ = ⟨some (pyLower b), [pyLower a], false⟩ := by
      simp [_update_agent_status_logic, findActiveAgent, findActiveAgentRev, aiEv,
        hb, hb', pyTruthy]
    have hu5 : _update_agent_status_logic [aiEv a, aiEv a, aiEv b, aiEv b, aiEv c]
        ⟨some (pyLower b), [pyLower a], false⟩ =
        ⟨some (pyLower c), [pyLower a, pyLower b], false⟩ := by
      simp [_update_agent_status_logic, findActiveAgent, findActiveAgentRev, aiEv,
        hc, hc', hlb, pyTruthy, hcb, hba]
    simp only [runAgentEvents, List.nil_append, List.cons_append]
    rw [hu1, hu2, hu3, hu4, hu5]
    exact ⟨rfl, rfl⟩
  · intro hist s hfa
    rw [_update_agent_status_logic, hfa]
    rcases hact : s.activeAgent with _ | x <;>
      simp only [hact] <;> split_ifs <;> simp_all

/-- Claim C4, witness: the transition law at concrete agent names. -/
theorem C4_witness :
    (runAgentEvents [aiEv "Recon", aiEv "Recon", aiEv "Planner", aiEv "Planner",
        aiEv "Summary"] [] {}).2.activeAgent = some (pyLower "Summary") ∧
    (runAgentEvents [aiEv "Recon", aiEv "Recon", aiEv "Planner", aiEv "Planner",
        aiEv "Summary"] [] {}).2.completedAgents = [pyLower "Recon", pyLower "Planner"] :=
  (C4_agent_transition_law "Recon" "Planner" "Summary" (by decide) (by decide) (by decide)
    (by decide) (by decide) (by decide) (by decide) (by decide) (by decide)).1

/-! ## Claims C10 and C8: orchestration-loop dedupe and idle timeout -/


theorem create_ai_id (h : String → Int) (now an dn av content : String)
    (rtc : List ToolCall) :
    (_create_ai_message h now an dn av content rtc).id =
      "ai_" ++ pyLower an ++ "_" ++ toString (h (pyTake content 100)) ++ "_" ++ now := by
  rw [_create_ai_message]
  split_ifs <;> rfl

theorem process_cli_event_id_ne (h : String → Int) (cfg : AgentConfig) (now : String)
    (ev : WEvent) : (process_cli_event h cfg now ev).id ≠ "" := by
  have h4 : ("ai_" : String) ≠ "" := by decide
  have h5 : ("tool_" : String) ≠ "" := by decide
  have h6 : ("user_" : String) ≠ "" := by decide
  have hai : ∀ an dn av content rtc,
      (_create_ai_message h now an dn av content rtc).id ≠ "" := by
    intro an dn av content rtc
    rw [create_ai_id]
    have n1 := str_append_ne_empty (pyLower an) h4
    have n2 := str_append_ne_empty "_" n1
    have n3 := str_append_ne_empty (toString (h (pyTake content 100))) n2
    have n4 := str_append_ne_empty "_" n3
    exact str_append_ne_empty now n4
  cases ev with
  | message mt an content tn tdn rtc cmd =>
    rw [process_cli_event]
    split_ifs with h1 h2 h3
    · exact hai an _ _ content rtc
    · rw [_create_tool_message]
      have n1 := str_append_ne_empty (tn.getD "Unknown Tool") h5
      have n2 := str_append_ne_empty "_" n1
      have n3 := str_append_ne_empty (toString (h (pyTake content 100))) n2
      have n4 := str_append_ne_empty "_" n3
      exact str_append_ne_empty now n4
    · rw [_create_user_message]
      have n1 := str_append_ne_empty (toString (h content)) h6
      have n2 := str_append_ne_empty "_" n1
      exact str_append_ne_empty now n2
    · exact hai an _ _ content rtc
  | workflowComplete sc m => exact hai "Unknown" _ _ "" []
  | error m => exact hai "Unknown" _ _ "" []

/-- Claim C10: the orchestration-loop dedupe is content-based, not
id-based — when `structured_messages` already holds a message with the
same `agent_id`, `type` and content, the new message is judged a
duplicate (even though its freshly generated id differs from every
existing id) and the event is neither appended, nor logged, nor
displayed: the state and activity map are returned untouched and no
message is handed to the display callback. -/
theorem C10_content_based_dedupe (h : String → Int) (cfg : AgentConfig) (now : String) (ev : WEvent)
    (act : List (String × Nat)) (st : SessionState)
    (hfresh : ∀ m ∈ st.structuredMessages, m.id ≠ (process_cli_event h cfg now ev).id)
    (hdup : ∃ m ∈ st.structuredMessages,
      m.agentId = (process_cli_event h cfg now ev).agentId ∧
      m.type = (process_cli_event h cfg now ev).type ∧
      m.content = (process_cli_event h cfg now ev).content) :
    is_duplicate_message (process_cli_event h cfg now ev) st.structuredMessages = true ∧
    _process_message_event_logic h cfg now ev act st = (st, act, []) := by
  have hisdup : is_duplicate_message (process_cli_event h cfg now ev)
      st.structuredMessages = true := by
    rw [is_duplicate_message]
    rw [if_neg (process_cli_event_id_ne h cfg now ev)]
    by_cases hany :
        (st.structuredMessages.any (fun m => m.id == (process_cli_event h cfg now ev).id)) = true
    · rw [if_pos hany]
    · rw [if_neg hany]
      rw [List.any_eq_true]
      rcases hdup with ⟨m, hm, h1, h2, h3⟩
      exact ⟨m, hm, by simp [h1, h2, h3]⟩
  refine ⟨hisdup, ?_⟩
  simp only [_process_message_event_logic]
  rw [if_pos hisdup]

theorem process_event_running (h : String → Int) (cfg : AgentConfig) (now : String)
    (ev : WEvent) (act : List (String × Nat)) (st : SessionState) :
    ((_process_event_logic h cfg now ev act st).2.1).workflowRunning =
      st.workflowRunning := by
  cases ev with
  | message mt an c tn tdn rtc cmd =>
    simp only [_process_event_logic, _process_message_event_logic]
    split <;> rfl
  | workflowComplete sc m => rfl
  | error m => rfl

theorem process_event_ok (h : String → Int) (cfg : AgentConfig) (now : String)
    (ev : WEvent) (act : List (String × Nat)) (st : SessionState)
    (hev : isErrorEvent ev = false) :
    (_process_event_logic h cfg now ev act st).1 = true := by
  cases ev <;> simp_all [_process_event_logic, isErrorEvent]

theorem wfLoop_idle (h : String → Int) (cfg : AgentConfig) :
    ∀ (events : List TimedEvent) (last : Int) (count tick : Nat)
      (act : List (String × Nat)) (st : SessionState) (res : ExecResult),
      st.workflowRunning = true → reachesIdleGap 3600 last events = true →
      (wfLoop h cfg 3600 events last count tick act st res).broke = true ∧
      (wfLoop h cfg 3600 events last count tick act st res).res.errorMessage =
        idleTimeoutMessage := by
  intro events
  induction events with
  | nil =>
    intro last count tick act st res hrun hgap
    simp [reachesIdleGap] at hgap
  | cons te rest ih =>
    intro last count tick act st res hrun hgap
    rw [reachesIdleGap] at hgap
    rw [wfLoop]
    rw [if_neg (by simp [hrun])]
    by_cases hgap1 : te.time - last > 3600
    · rw [if_pos hgap1]
      exact ⟨rfl, rfl⟩
    · rw [if_neg hgap1]
      rw [if_neg hgap1] at hgap
      by_cases herr : isErrorEvent te.event = true
      · rw [if_pos herr] at hgap
        simp at hgap
      · have herr' : isErrorEvent te.event = false := by simpa using herr
        rw [if_neg herr] at hgap
        dsimp only
        have hok := process_event_ok h cfg (toString tick) te.event act
          { st with eventHistory := st.eventHistory ++ [te.event] } herr'
        rw [if_pos hok]
        refine ih te.time _ _ _ _ _ ?_ hgap
        show ((_process_event_logic h cfg (toString tick) te.event act
          { st with eventHistory := st.eventHistory ++ [te.event] }).2.1).workflowRunning = true
        rw [process_event_running]
        exact hrun

/-- Claim C8: `workflow_running` is `False` after the loop exits on every
path; and a run whose trace hits an idle gap beyond the configured window
(before any `error` event breaks the loop) terminates with the
distinguished idle-timeout message, which is not a generic
`Workflow execution error:` message. -/
theorem C8_idle_timeout_boundary (h : String → Int) (cfg : AgentConfig) (events : List TimedEvent)
    (startTime : Int) (raised : Option Exn) (st0 : SessionState) :
    ((execute_workflow_logic h cfg events startTime raised st0).2.1.workflowRunning =
      false) ∧
    (reachesIdleGap 3600 startTime events = true →
      ∃ r, (execute_workflow_logic h cfg events startTime raised st0).1 = some r ∧
        r.errorMessage = idleTimeoutMessage ∧
        pyStartsWith r.errorMessage "Workflow execution error:" = false) := by
  constructor
  · rfl
  · intro hgap
    have hloop := wfLoop_idle h cfg events startTime 0 0 []
      { st0 with workflowRunning := true } {} rfl hgap
    rw [execute_workflow_logic.eq_def]
    dsimp only
    rw [if_pos hloop.1]
    refine ⟨_, rfl, ?_, ?_⟩
    · exact hloop.2
    · rw [show ({ (wfLoop h cfg 3600 events startTime 0 0 []
          { st0 with workflowRunning := true } {}).res with
            success := true,
            eventCount := (wfLoop h cfg 3600 events startTime 0 0 []
              { st0 with workflowRunning := true } {}).count,
            agentActivity := (wfLoop h cfg 3600 events startTime 0 0 []
              { st0 with workflowRunning := true } {}).activity } : ExecResult).errorMessage =
          (wfLoop h cfg 3600 events startTime 0 0 []
            { st0 with workflowRunning := true } {}).res.errorMessage from rfl]
      rw [hloop.2]
      decide

/-- Claim C10, witness: two messages from the same agent with identical
content but distinct fresh ids — the second is judged a duplicate and the
state is left untouched. -/
theorem C10_witness :
    is_duplicate_message
      (process_cli_event lengthHash plainConfig "1"
        (WEvent.message "ai" "recon" "hello" none none [] none))
      [process_cli_event lengthHash plainConfig "0"
        (WEvent.message "ai" "recon" "hello" none none [] none)] = true ∧
    _process_message_event_logic lengthHash plainConfig "1"
      (WEvent.message "ai" "recon" "hello" none none [] none) []
      { structuredMessages := [process_cli_event lengthHash plainConfig "0"
          (WEvent.message "ai" "recon" "hello" none none [] none)] } =
      ({ structuredMessages := [process_cli_event lengthHash plainConfig "0"
          (WEvent.message "ai" "recon" "hello" none none [] none)] }, [], []) :=
  C10_content_based_dedupe lengthHash plainConfig "1"
    (WEvent.message "ai" "recon" "hello" none none [] none) []
    { structuredMessages := [process_cli_event lengthHash plainConfig "0"
        (WEvent.message "ai" "recon" "hello" none none [] none)] }
    (by decide) (by decide)

/-- Claim C8, witness: a concrete trace whose single event arrives after
the idle window — the run ends with the idle-timeout message and a
cleared running flag. -/
theorem C8_witness :
    ((execute_workflow_logic lengthHash plainConfig [⟨3601, aiEv "recon"⟩] 0 none
        {}).2.1.workflowRunning = false) ∧
    (∃ r, (execute_workflow_logic lengthHash plainConfig [⟨3601, aiEv "recon"⟩] 0 none
        {}).1 = some r ∧
      r.errorMessage = idleTimeoutMessage ∧
      pyStartsWith r.errorMessage "Workflow execution error:" = false) :=
  ⟨(C8_idle_timeout_boundary lengthHash plainConfig [⟨3601, aiEv "recon"⟩] 0 none {}).1,
   (C8_idle_timeout_boundary lengthHash plainConfig [⟨3601, aiEv "recon"⟩] 0 none {}).2
     (by decide)⟩

end Agent
